import Mathlib

/-!
Shallow embedding of the flakestry backend (backend-rs): the data model,
the relational and search accessors, and the two request handlers
(`get_flake` in main.rs and in api/flake.rs, `read_repo` in api/flake.rs),
together with theorems settling the specification claims.

Conventions of the embedding:
- Rust `f64` relevance scores are modelled by `FVal`: either a rational
  number or the non-comparable `nan` value, so that the partial order of
  `f64` (`partial_cmp` returning `None` on NaN) is represented exactly.
- JSON values (serde_json `Value`) are the inductive `Json`; indexing a
  missing key or a non-object yields `Json.null`, as serde_json does.
- A Rust panic (a failing `unwrap` or indexing a map with a missing key)
  is modelled by `Option.none` / `RustOutcome.panic`; a `Result::Err`
  propagated with `?` is modelled by `Except.error` / `RustOutcome.err`.
- The relational store is passed in as data: the outcome of the round
  trip is an `Except String (List row)`.  SQL clauses appearing verbatim
  in the source (`WHERE id IN (...)`, `WHERE repo_id = $1`,
  `ORDER BY created_at DESC LIMIT 100`) are given their standard
  relational meaning (filter, sort, take).
- Rust stable `sort` / `sort_by` is modelled by `List.insertionSort`,
  which is stable like the sort of the Rust standard library and agrees
  with it on every total preorder comparator.
-/

namespace Flakestry

/-- Model of an `f64` relevance score: a rational value or NaN. -/
inductive FVal where
  | nan : FVal
  | val : ℚ → FVal
deriving DecidableEq, Repr

/-- Model of Rust `f64::partial_cmp`: `None` when either side is NaN. -/
def FVal.cmpOpt : FVal → FVal → Option Ordering
  | .val a, .val b => some (compare a b)
  | _, _ => none

/-- Model of serde_json `Value`. -/
inductive Json where
  | null : Json
  | bool (b : Bool) : Json
  | num (q : ℚ) : Json
  | str (s : String) : Json
  | arr (elems : List Json) : Json
  | obj (fields : List (String × Json)) : Json

/-- Indexing a serde_json `Value` with a string key: the value under the
key of an object, `null` for a missing key or a non-object. -/
def Json.index (j : Json) (k : String) : Json :=
  match j with
  | .obj fields =>
    match fields.lookup k with
    | some v => v
    | none => .null
  | _ => .null

/-- Model of serde_json `Value::as_array`. -/
def Json.asArr : Json → Option (List Json)
  | .arr elems => some elems
  | _ => none

/-- Model of serde_json `Value::as_str`. -/
def Json.asStr : Json → Option String
  | .str s => some s
  | _ => none

/-- Model of serde_json `Value::as_f64`: any JSON number converts (JSON
numbers are never NaN). -/
def Json.asF64 : Json → Option FVal
  | .num q => some (.val q)
  | _ => none

/-- Keys of a JSON object (empty for non-objects). -/
def Json.objKeys : Json → List String
  | .obj fields => fields.map Prod.fst
  | _ => []

/-- Numeric value of a list of decimal digit characters; `none` when the
list is empty or contains a non-digit. -/
def digitsVal (cs : List Char) : Option Nat :=
  if cs.isEmpty then none
  else cs.foldl
    (fun acc c =>
      match acc with
      | none => none
      | some n => if c.isDigit then some (n * 10 + (c.toNat - 48)) else none)
    (some 0)

/-- Model of Rust `str::parse::<i32>()`: an optional sign followed by at
least one decimal digit, within the `i32` range. -/
def parseI32 (s : String) : Option Int :=
  let signed : Int × List Char :=
    match s.data with
    | '+' :: rest => (1, rest)
    | '-' :: rest => (-1, rest)
    | cs => (1, cs)
  match digitsVal signed.2 with
  | none => none
  | some n =>
    let v : Int := signed.1 * (n : Int)
    if -(2 ^ 31) ≤ v ∧ v ≤ 2 ^ 31 - 1 then some v else none

/-- Model of `HashMap::insert` on an association list: replace the value
under an existing key, otherwise append the binding. -/
def insertAL (k : Int) (v : FVal) : List (Int × FVal) → List (Int × FVal)
  | [] => [(k, v)]
  | (k', v') :: t => if k = k' then (k, v) :: t else (k', v') :: insertAL k v t

/-- Lexicographic comparison of character lists by code point.  For
valid UTF-8 this coincides with the byte-wise ordering Rust uses for
`str` and `String`. -/
def charsLe : List Char → List Char → Bool
  | [], _ => true
  | _ :: _, [] => false
  | a :: as, b :: bs =>
    if a.toNat < b.toNat then true
    else if b.toNat < a.toNat then false
    else charsLe as bs

/-- Model of the Rust `String` ordering (`Ord` on `str`): plain
lexicographic comparison, with no semantic-version interpretation. -/
def strLe (a b : String) : Bool := charsLe a.data b.data

/-- Release record as mapped by sql.rs `FlakeRelease` (description is an
optional column; `created_at` is a timestamp, modelled as an integer). -/
structure SqlFlakeRelease where
  id : Int
  owner : String
  repo : String
  version : String
  description : Option String
  created_at : Int
deriving DecidableEq, Repr

/-- Compact release record as mapped by api/flake.rs
`FlakeReleaseCompact` (description defaults to the empty string). -/
structure ApiFlakeReleaseCompact where
  id : Int
  owner : String
  repo : String
  version : String
  description : String
  created_at : Int
deriving DecidableEq, Repr

/-- Extended release record as mapped by api/flake.rs `FlakeRelease`
(adds the commit reference and the readme blob). -/
structure ApiFlakeRelease where
  id : Int
  owner : String
  repo : String
  version : String
  description : String
  created_at : Int
  commit : String
  readme : String
deriving DecidableEq, Repr

/-- Serde serialization of sql.rs `FlakeRelease`: every field in
declaration order except `id`, which carries `skip_serializing`. -/
def SqlFlakeRelease.toJson (r : SqlFlakeRelease) : Json :=
  .obj [("owner", .str r.owner),
        ("repo", .str r.repo),
        ("version", .str r.version),
        ("description", match r.description with
          | some d => .str d
          | none => .null),
        ("created_at", .num (r.created_at : ℚ))]

/-- Serde serialization of api/flake.rs `FlakeReleaseCompact`: every
field in declaration order except the skipped `id`. -/
def ApiFlakeReleaseCompact.toJson (r : ApiFlakeReleaseCompact) : Json :=
  .obj [("owner", .str r.owner),
        ("repo", .str r.repo),
        ("version", .str r.version),
        ("description", .str r.description),
        ("created_at", .num (r.created_at : ℚ))]

/-- Serde serialization of api/flake.rs extended `FlakeRelease`: every
field in declaration order except the skipped `id`. -/
def ApiFlakeRelease.toJson (r : ApiFlakeRelease) : Json :=
  .obj [("owner", .str r.owner),
        ("repo", .str r.repo),
        ("version", .str r.version),
        ("description", .str r.description),
        ("created_at", .num (r.created_at : ℚ)),
        ("commit", .str r.commit),
        ("readme", .str r.readme)]

/-- The search request built by `search_flakes` (identical in search.rs
and api/flake.rs): index `flakes`, page size 10, and the literal JSON
body passed to the engine. -/
structure SearchRequest where
  indexParts : List String
  size : Nat
  body : Json

/-- Request construction of `search_flakes`: a fuzzy multi-match over
description (boost 2), readme, outputs, repo (boost 2) and owner
(boost 2), bounded to 10 hits. -/
def searchRequest (q : String) : SearchRequest :=
  { indexParts := ["flakes"],
    size := 10,
    body := .obj [("query", .obj [("multi_match", .obj
      [("query", .str q),
       ("fuzziness", .str "AUTO"),
       ("fields", .arr [.str "description^2",
                        .str "readme",
                        .str "outputs",
                        .str "repo^2",
                        .str "owner^2"])])])] }

/-- Hit-extraction loop of search.rs `search_flakes`: each hit is read
with `unwrap`, so any shape violation panics (modelled as `none`). -/
def extractLoopUnwrap : List Json → List (Int × FVal) → Option (List (Int × FVal))
  | [], acc => some acc
  | hit :: rest, acc =>
    match ((hit.index "_id").asStr).bind parseI32, (hit.index "_score").asF64 with
    | some id, some score => extractLoopUnwrap rest (insertAL id score acc)
    | _, _ => none

/-- Response processing of search.rs `search_flakes`: take
`res["hits"]["hits"]` as an array and build the identifier-to-score map,
with `unwrap` on every step (a malformed response panics, i.e. `none`). -/
def searchExtractUnwrap (res : Json) : Option (List (Int × FVal)) :=
  match ((res.index "hits").index "hits").asArr with
  | none => none
  | some hitArr => extractLoopUnwrap hitArr []

/-- Hit-extraction loop of api/flake.rs `search_flakes`: each failing
step is converted into an error carrying its context message. -/
def extractLoopCtx : List Json → List (Int × FVal) → Except String (List (Int × FVal))
  | [], acc => .ok acc
  | hit :: rest, acc =>
    match (hit.index "_id").asStr with
    | none => .error "failed to read id as string from open search hit"
    | some idStr =>
      match parseI32 idStr with
      | none => .error "failed to parse id from open search hit"
      | some id =>
        match (hit.index "_score").asF64 with
        | none => .error "failed to parse score from open search hit"
        | some score => extractLoopCtx rest (insertAL id score acc)

/-- Response processing of api/flake.rs `search_flakes`: the same shape
traversal, with every failure mapped to an error result (`context`). -/
def searchExtractCtx (res : Json) : Except String (List (Int × FVal)) :=
  match ((res.index "hits").index "hits").asArr with
  | none => .error "failed to extract hits from open search response"
  | some hitArr => extractLoopCtx hitArr []

/-- Relational accessor sql.rs `get_flakes_by_ids`: an empty identifier
list returns `Ok(vec![])` before any query is issued; otherwise the
`WHERE release.id IN (...)` query is run against the store.  The store
round trip is passed in as `db`; the Boolean records whether a query was
issued. -/
def sqlGetFlakesByIds (flake_ids : List Int)
    (db : Except String (List SqlFlakeRelease)) :
    Except String (List SqlFlakeRelease) × Bool :=
  if flake_ids.isEmpty then (.ok [], false)
  else (db.map (fun rows => rows.filter (fun r => flake_ids.contains r.id)), true)

/-- Relational accessor api/flake.rs `get_flakes_by_ids`: identical
short-circuit on an empty identifier list, over compact rows. -/
def apiGetFlakesByIds (flake_ids : List Int)
    (db : Except String (List ApiFlakeReleaseCompact)) :
    Except String (List ApiFlakeReleaseCompact) × Bool :=
  if flake_ids.isEmpty then (.ok [], false)
  else (db.map (fun rows => rows.filter (fun r => flake_ids.contains r.id)), true)

/-- Relational accessor sql.rs `get_flakes`: the
`ORDER BY release.created_at DESC LIMIT 100` query, i.e. the stored rows
sorted newest first and capped at 100. -/
def sqlGetFlakes (db : Except String (List SqlFlakeRelease)) :
    Except String (List SqlFlakeRelease) :=
  db.map (fun rows =>
    (List.insertionSort (fun a b => b.created_at ≤ a.created_at) rows).take 100)

/-- Relational accessor api/flake.rs `get_flakes`: the same query over
compact rows. -/
def apiGetFlakes (db : Except String (List ApiFlakeReleaseCompact)) :
    Except String (List ApiFlakeReleaseCompact) :=
  db.map (fun rows =>
    (List.insertionSort (fun a b => b.created_at ≤ a.created_at) rows).take 100)

/-- Comparator of the main.rs search-path sort,
`hits[&b.id].partial_cmp(&hits[&a.id])`: index the score map at both
identifiers (a missing key panics) and compare the scores under the
`f64` partial order (`None`, hence a panic of the final `unwrap`, when a
score is NaN). -/
def hitsCmp (hits : List (Int × FVal)) (a b : SqlFlakeRelease) : Option Ordering :=
  match hits.lookup b.id, hits.lookup a.id with
  | some sb, some sa => FVal.cmpOpt sb sa
  | _, _ => none

/-- Rust `sort_by` with a comparator that may panic: when every needed
comparison is defined the result is the stable sort under
`cmp a b ≠ Greater`, otherwise the call panics (`none`).  The stable
sort is modelled by `List.insertionSort`. -/
def sortByOpt (cmp : α → α → Option Ordering) (l : List α) : Option (List α) :=
  if l.all (fun a => l.all (fun b => (cmp a b).isSome)) then
    some (List.insertionSort (fun a b => cmp a b ≠ some Ordering.gt) l)
  else none

/-- Outcome of one request-handler run: a panic, an error response, or a
success value. -/
inductive RustOutcome (α : Type) where
  | panic : RustOutcome α
  | err (msg : String) : RustOutcome α
  | ok (a : α) : RustOutcome α
deriving DecidableEq, Repr

/-- Which branch of `get_flake` ran: the search path with the given
query string, or the unfiltered recent listing. -/
inductive PathTaken where
  | search (q : String) : PathTaken
  | recent : PathTaken
deriving DecidableEq, Repr

/-- Response body of main.rs `get_flake`. -/
structure GetFlakeResponse where
  releases : List SqlFlakeRelease
  count : Nat
  query : Option String
deriving DecidableEq, Repr

/-- Response body of api/flake.rs `get_flake`. -/
structure ApiGetFlakeResponse where
  releases : List ApiFlakeReleaseCompact
  count : Nat
  query : Option String
deriving DecidableEq, Repr

/-- Handler main.rs `get_flake`: remove `q` from the request parameters;
when present, run the search, build the score map with unwraps, hydrate
the hit identifiers, and when the hydrated list is non-empty sort it by
descending score with the panicking comparator; when absent, delegate to
the recent listing.  `engine` gives the decoded search-engine response
for a query. -/
def mainGetFlake (params : List (String × String)) (engine : String → Json)
    (db : Except String (List SqlFlakeRelease)) :
    PathTaken × RustOutcome GetFlakeResponse :=
  match params.lookup "q" with
  | some q =>
    (.search q,
      match searchExtractUnwrap (engine q) with
      | none => .panic
      | some hits =>
        match sqlGetFlakesByIds (hits.map Prod.fst) db with
        | (.error e, _) => .err e
        | (.ok releases, _) =>
          if releases.isEmpty then
            .ok { releases := releases, count := releases.length, query := some q }
          else
            match sortByOpt (hitsCmp hits) releases with
            | none => .panic
            | some sorted =>
              .ok { releases := sorted, count := sorted.length, query := some q })
  | none =>
    (.recent,
      match sqlGetFlakes db with
      | .error e => .err e
      | .ok releases =>
        .ok { releases := releases, count := releases.length, query := none })

/-- Handler api/flake.rs `get_flake`: the same branching, but the score
map is built with error contexts, and the non-empty hydrated list is
sorted with `releases.sort()`, i.e. by the derived `Ord`, which compares
the internal `id` ascending — the scores are not consulted. -/
def apiGetFlake (params : List (String × String)) (engine : String → Json)
    (db : Except String (List ApiFlakeReleaseCompact)) :
    PathTaken × RustOutcome ApiGetFlakeResponse :=
  match params.lookup "q" with
  | some q =>
    (.search q,
      match searchExtractCtx (engine q) with
      | .error e => .err e
      | .ok hits =>
        match apiGetFlakesByIds (hits.map Prod.fst) db with
        | (.error e, _) => .err e
        | (.ok releases, _) =>
          let sorted :=
            if releases.isEmpty then releases
            else List.insertionSort (fun a b => a.id ≤ b.id) releases
          .ok { releases := sorted, count := sorted.length, query := some q })
  | none =>
    (.recent,
      match apiGetFlakes db with
      | .error e => .err e
      | .ok releases =>
        .ok { releases := releases, count := releases.length, query := none })

/-- Row of the repository-identity lookup joined in api/flake.rs
`get_repo_id`: the repository identifier, the repository name and the
owner name. -/
structure RepoRow where
  id : Int
  name : String
  owner_name : String
deriving DecidableEq, Repr

/-- Accessor api/flake.rs `get_repo_id`: the
`WHERE githubrepo.name = $1 AND githubowner.name = $2 LIMIT 1` lookup
with `fetch_optional` — a missing row is `none`, not an error. -/
def getRepoId (owner repo : String) (repos : List RepoRow) : Option Int :=
  (repos.find? (fun row => row.name == repo && row.owner_name == owner)).map (·.id)

/-- Accessor api/flake.rs `get_repo_releases`: the
`WHERE release.repo_id = $1` query; the store is a list of rows tagged
with their `repo_id`. -/
def getRepoReleases (repo_id : Int) (db : List (Int × ApiFlakeRelease)) :
    List ApiFlakeRelease :=
  (db.filter (fun row => row.1 == repo_id)).map Prod.snd

/-- HTTP result of api/flake.rs `read_repo`: a 200 with the release
list, or a 404 with the `NotFoundResponse` detail. -/
inductive RepoHttpResponse where
  | ok (releases : List ApiFlakeRelease) : RepoHttpResponse
  | notFound (detail : String) : RepoHttpResponse
deriving DecidableEq, Repr

/-- HTTP status code of a `read_repo` result. -/
def RepoHttpResponse.status : RepoHttpResponse → Nat
  | .ok _ => 200
  | .notFound _ => 404

/-- Serialized JSON body of a `read_repo` result: `RepoResponse` on 200,
`NotFoundResponse` on 404. -/
def RepoHttpResponse.body : RepoHttpResponse → Json
  | .ok releases => .obj [("releases", .arr (releases.map ApiFlakeRelease.toJson))]
  | .notFound detail => .obj [("detail", .str detail)]

/-- Handler api/flake.rs `read_repo`: resolve the owner/repo pair; on a
hit fetch its releases and, when non-empty, sort them by version string
ascending (`String` `Ord`, i.e. lexicographic) and reverse; on a miss
answer 404 with detail `Not Found`. -/
def readRepo (owner repo : String) (repos : List RepoRow)
    (db : List (Int × ApiFlakeRelease)) : RepoHttpResponse :=
  match getRepoId owner repo repos with
  | some repo_id =>
    let releases := getRepoReleases repo_id db
    let releases :=
      if releases.isEmpty then releases
      else (List.insertionSort (fun a b => strLe a.version b.version = true) releases).reverse
    .ok releases
  | none => .notFound "Not Found"

/-! Concrete fixtures used by witnesses and counterexample evaluations. -/

/-- Search-engine hit document with the given identifier and score. -/
def hitDoc (id : String) (score : ℚ) : Json :=
  .obj [("_id", .str id), ("_score", .num score)]

/-- Well-formed engine response carrying the given hit documents. -/
def hitsResp (hits : List Json) : Json :=
  .obj [("hits", .obj [("hits", .arr hits)])]

/-- Engine fixture answering every query with two hits: release 1 with
score 1 and release 2 with score 5. -/
def engineTwoHits : String → Json := fun _ => hitsResp [hitDoc "1" 1, hitDoc "2" 5]

/-- Engine fixture answering every query with zero hits. -/
def engineNoHits : String → Json := fun _ => hitsResp []

/-- Compact release fixture with the given identifier. -/
def compactRow (i : Int) : ApiFlakeReleaseCompact :=
  { id := i, owner := "acme", repo := "widget", version := "1.0.0",
    description := "demo flake", created_at := i }

/-- Store release fixture with the given identifier. -/
def sqlRow (i : Int) : SqlFlakeRelease :=
  { id := i, owner := "acme", repo := "widget", version := "1.0.0",
    description := some "demo flake", created_at := i }

/-- Repository-identity fixture: repository `widget` of owner `acme`
with internal identifier 7. -/
def reposFixture : List RepoRow :=
  [{ id := 7, name := "widget", owner_name := "acme" }]

/-- Extended release fixture with the given version string. -/
def fullRow (v : String) : ApiFlakeRelease :=
  { id := 1, owner := "acme", repo := "widget", version := v,
    description := "demo flake", created_at := 0, commit := "abc", readme := "hello" }

/-- Malformed engine response: no `hits` member at all. -/
def respNoHits : Json := .obj []

/-- Malformed engine response: a hit whose `_id` is not a string. -/
def respIdNotString : Json :=
  hitsResp [Json.obj [("_id", .num 3), ("_score", .num 1)]]

/-- Malformed engine response: a hit whose `_id` is not a numeric string. -/
def respIdNotNumeric : Json :=
  hitsResp [Json.obj [("_id", .str "abc"), ("_score", .num 1)]]

/-- Malformed engine response: a hit with no `_score` member. -/
def respNoScore : Json :=
  hitsResp [Json.obj [("_id", .str "1")]]

/-! Helper lemmas shared by the claim theorems. -/

theorem charsLe_total : ∀ (a b : List Char), charsLe a b = true ∨ charsLe b a = true
  | [], _ => Or.inl rfl
  | _ :: _, [] => Or.inr rfl
  | a :: as, b :: bs => by
    rcases Nat.lt_trichotomy a.toNat b.toNat with hab | hab | hab
    · left; simp [charsLe, hab]
    · have h1 : ¬ a.toNat < b.toNat := by omega
      have h2 : ¬ b.toNat < a.toNat := by omega
      rcases charsLe_total as bs with h | h
      · left; simp [charsLe, h1, h2, h]
      · right; simp [charsLe, h1, h2, h]
    · right; simp [charsLe, hab]

theorem charsLe_trans : ∀ {a b c : List Char},
    charsLe a b = true → charsLe b c = true → charsLe a c = true
  | [], _, _, _, _ => rfl
  | _ :: _, [], _, h1, _ => by simp [charsLe] at h1
  | _ :: _, _ :: _, [], _, h2 => by simp [charsLe] at h2
  | a :: as, b :: bs, c :: cs, h1, h2 => by
    rcases Nat.lt_trichotomy a.toNat b.toNat with hab | hab | hab <;>
      rcases Nat.lt_trichotomy b.toNat c.toNat with hbc | hbc | hbc
    · simp [charsLe, Nat.lt_trans hab hbc]
    · simp [charsLe, hbc ▸ hab]
    · simp only [charsLe, show ¬ b.toNat < c.toNat by omega, if_false, hbc, if_true] at h2
      exact absurd h2 (by decide)
    · simp [charsLe, hab ▸ hbc]
    · have h1' : charsLe as bs = true := by
        simpa [charsLe, show ¬ a.toNat < b.toNat by omega,
          show ¬ b.toNat < a.toNat by omega] using h1
      have h2' : charsLe bs cs = true := by
        simpa [charsLe, show ¬ b.toNat < c.toNat by omega,
          show ¬ c.toNat < b.toNat by omega] using h2
      simpa [charsLe, show ¬ a.toNat < c.toNat by omega,
        show ¬ c.toNat < a.toNat by omega] using charsLe_trans h1' h2'
    · simp only [charsLe, show ¬ b.toNat < c.toNat by omega, if_false, hbc, if_true] at h2
      exact absurd h2 (by decide)
    · simp only [charsLe, show ¬ a.toNat < b.toNat by omega, if_false, hab, if_true] at h1
      exact absurd h1 (by decide)
    · simp only [charsLe, show ¬ a.toNat < b.toNat by omega, if_false, hab, if_true] at h1
      exact absurd h1 (by decide)
    · simp only [charsLe, show ¬ a.toNat < b.toNat by omega, if_false, hab, if_true] at h1
      exact absurd h1 (by decide)

theorem strLe_total (a b : String) : strLe a b = true ∨ strLe b a = true :=
  charsLe_total a.data b.data

theorem strLe_trans {a b c : String} (h1 : strLe a b = true) (h2 : strLe b c = true) :
    strLe a c = true :=
  charsLe_trans h1 h2

theorem mem_of_lookup_eq_some {l : List (Int × FVal)} {k : Int} {v : FVal}
    (h : l.lookup k = some v) : (k, v) ∈ l := by
  rcases List.lookup_eq_some_iff.mp h with ⟨l₁, l₂, rfl, -⟩
  simp

theorem lookup_isSome_of_mem_map_fst {l : List (Int × FVal)} {k : Int}
    (h : k ∈ l.map Prod.fst) : ∃ v, l.lookup k = some v := by
  rcases List.mem_map.mp h with ⟨p, hp, hk⟩
  have : (l.lookup k).isSome := List.lookup_isSome_iff.mpr ⟨p, hp, by simp [hk]⟩
  exact Option.isSome_iff_exists.mp this

theorem insertAL_length (k : Int) (v : FVal) :
    ∀ l : List (Int × FVal), (insertAL k v l).length ≤ l.length + 1
  | [] => by simp [insertAL]
  | (k', v') :: t => by
    by_cases h : k = k'
    · simp [insertAL, h]
    · simpa [insertAL, h] using insertAL_length k v t

theorem extractLoopCtx_length : ∀ {hits : List Json} {acc m : List (Int × FVal)},
    extractLoopCtx hits acc = .ok m → m.length ≤ acc.length + hits.length
  | [], acc, m, h => by
    simp only [extractLoopCtx] at h
    cases h
    simp
  | hit :: rest, acc, m, h => by
    cases hid : (hit.index "_id").asStr with
    | none => simp only [extractLoopCtx, hid] at h; cases h
    | some idStr =>
      cases hparse : parseI32 idStr with
      | none => simp only [extractLoopCtx, hid, hparse] at h; cases h
      | some id =>
        cases hscore : (hit.index "_score").asF64 with
        | none => simp only [extractLoopCtx, hid, hparse, hscore] at h; cases h
        | some score =>
          simp only [extractLoopCtx, hid, hparse, hscore] at h
          have hrec := extractLoopCtx_length h
          have hins := insertAL_length id score acc
          simp only [List.length_cons]
          omega

/-! Claim theorems. -/

/-- Claim C3: calling `get_flakes_by_ids` with an empty identifier
collection (in both sql.rs and api/flake.rs) returns the empty list
without error and without issuing a relational query, and when the
search step returns zero hits the `get_flake` response has `count = 0`
and `releases = []`. -/
theorem get_flakes_by_ids_empty_short_circuit
    (db : Except String (List SqlFlakeRelease))
    (dbApi : Except String (List ApiFlakeReleaseCompact))
    (params : List (String × String)) (engine : String → Json) (q : String)
    (hq : params.lookup "q" = some q)
    (hzero : searchExtractUnwrap (engine q) = some []) :
    sqlGetFlakesByIds [] db = (.ok [], false) ∧
    apiGetFlakesByIds [] dbApi = (.ok [], false) ∧
    mainGetFlake params engine db =
      (.search q, .ok { releases := [], count := 0, query := some q }) := by
  refine ⟨rfl, rfl, ?_⟩
  simp [mainGetFlake, hq, hzero, sqlGetFlakesByIds]

/-- Witness for C3 at a concrete zero-hit search. -/
theorem get_flakes_by_ids_empty_short_circuit_witness :
    ([("q", "rust")] : List (String × String)).lookup "q" = some "rust" ∧
    searchExtractUnwrap (engineNoHits "rust") = some [] ∧
    (sqlGetFlakesByIds [] (Except.ok [sqlRow 1]) = (.ok [], false) ∧
     apiGetFlakesByIds [] (Except.ok [compactRow 1]) = (.ok [], false) ∧
     mainGetFlake [("q", "rust")] engineNoHits (.ok [sqlRow 1]) =
       (.search "rust", .ok { releases := [], count := 0, query := some "rust" })) :=
  ⟨rfl, rfl,
    get_flakes_by_ids_empty_short_circuit (.ok [sqlRow 1]) (.ok [compactRow 1])
      [("q", "rust")] engineNoHits "rust" rfl rfl⟩

/-- Claim C5: when no repository row matches the owner/repo pair, the
lookup resolves to an absent identifier rather than an error, and
`read_repo` answers 404 with body detail `Not Found`, never 500. -/
theorem read_repo_unknown_pair_not_found
    (owner repo : String) (repos : List RepoRow) (db : List (Int × ApiFlakeRelease))
    (h : ∀ row ∈ repos, ¬(row.name = repo ∧ row.owner_name = owner)) :
    getRepoId owner repo repos = none ∧
    readRepo owner repo repos db = .notFound "Not Found" ∧
    (readRepo owner repo repos db).status = 404 ∧
    (readRepo owner repo repos db).body = Json.obj [("detail", Json.str "Not Found")] ∧
    (readRepo owner repo repos db).status ≠ 500 := by
  have hfind : repos.find? (fun row => row.name == repo && row.owner_name == owner) = none := by
    rw [List.find?_eq_none]
    intro row hrow
    have := h row hrow
    simp only [Bool.and_eq_true, beq_iff_eq]
    tauto
  have hid : getRepoId owner repo repos = none := by
    simp [getRepoId, hfind]
  have hrr : readRepo owner repo repos db = .notFound "Not Found" := by
    simp [readRepo, hid]
  exact ⟨hid, hrr, by rw [hrr]; rfl, by rw [hrr]; rfl, by rw [hrr]; decide⟩

/-- Witness for C5 at a concrete unknown owner/repo pair. -/
theorem read_repo_unknown_pair_not_found_witness :
    (∀ row ∈ reposFixture, ¬(row.name = "widget" ∧ row.owner_name = "ghost")) ∧
    (getRepoId "ghost" "widget" reposFixture = none ∧
     readRepo "ghost" "widget" reposFixture [] = .notFound "Not Found" ∧
     (readRepo "ghost" "widget" reposFixture []).status = 404 ∧
     (readRepo "ghost" "widget" reposFixture []).body =
       Json.obj [("detail", Json.str "Not Found")] ∧
     (readRepo "ghost" "widget" reposFixture []).status ≠ 500) :=
  ⟨by decide, read_repo_unknown_pair_not_found "ghost" "widget" reposFixture [] (by decide)⟩

/-- Claim C8: the internal identifier is omitted from every serialized
release shape: `id` is not among the serialized keys, and two releases
differing only in `id` serialize to identical JSON. -/
theorem release_id_never_serialized :
    (∀ (r : SqlFlakeRelease) (i : Int),
      SqlFlakeRelease.toJson { r with id := i } = r.toJson ∧
      "id" ∉ (SqlFlakeRelease.toJson r).objKeys) ∧
    (∀ (r : ApiFlakeReleaseCompact) (i : Int),
      ApiFlakeReleaseCompact.toJson { r with id := i } = r.toJson ∧
      "id" ∉ (ApiFlakeReleaseCompact.toJson r).objKeys) ∧
    (∀ (r : ApiFlakeRelease) (i : Int),
      ApiFlakeRelease.toJson { r with id := i } = r.toJson ∧
      "id" ∉ (ApiFlakeRelease.toJson r).objKeys) := by
  refine ⟨fun r i => ⟨rfl, ?_⟩, fun r i => ⟨rfl, ?_⟩, fun r i => ⟨rfl, ?_⟩⟩ <;>
    simp [SqlFlakeRelease.toJson, ApiFlakeReleaseCompact.toJson, ApiFlakeRelease.toJson,
      Json.objKeys]

/-- Claim C4: for a known owner/repo pair, `read_repo` answers 200 with
exactly the releases of that repository, ordered by version string
descending under plain lexicographic comparison (not semantic-version
order). -/
theorem read_repo_known_pair_version_sorted
    (owner repo : String) (repos : List RepoRow) (db : List (Int × ApiFlakeRelease))
    (rid : Int) (h : getRepoId owner repo repos = some rid) :
    (readRepo owner repo repos db).status = 200 ∧
    ∃ out, readRepo owner repo repos db = .ok out ∧
      out.Perm (getRepoReleases rid db) ∧
      out.Pairwise (fun a b => strLe b.version a.version = true) := by
  by_cases hemp : (getRepoReleases rid db).isEmpty
  · have hnil : getRepoReleases rid db = [] := List.isEmpty_iff.mp hemp
    have hrr : readRepo owner repo repos db = .ok [] := by
      simp [readRepo, h, hnil]
    exact ⟨by rw [hrr]; rfl, [], hrr, by rw [hnil], List.Pairwise.nil⟩
  · have hrr : readRepo owner repo repos db =
        .ok ((List.insertionSort (fun a b => strLe a.version b.version = true)
              (getRepoReleases rid db)).reverse) := by
      simp [readRepo, h, hemp]
    refine ⟨by rw [hrr]; rfl, _, hrr, ?_, ?_⟩
    · exact (List.reverse_perm _).trans (List.perm_insertionSort _ _)
    · rw [List.pairwise_reverse]
      haveI : IsTotal ApiFlakeRelease (fun a b => strLe a.version b.version = true) :=
        ⟨fun a b => strLe_total _ _⟩
      haveI : IsTrans ApiFlakeRelease (fun a b => strLe a.version b.version = true) :=
        ⟨fun _ _ _ => strLe_trans⟩
      exact List.sorted_insertionSort (fun a b : ApiFlakeRelease => strLe a.version b.version = true) _

/-- Witness for C4, demonstrating the non-semver order: version `2.0.0`
is listed before version `10.0.0`. -/
theorem read_repo_known_pair_version_sorted_witness :
    getRepoId "acme" "widget" reposFixture = some 7 ∧
    readRepo "acme" "widget" reposFixture [(7, fullRow "10.0.0"), (7, fullRow "2.0.0")] =
      .ok [fullRow "2.0.0", fullRow "10.0.0"] ∧
    ((readRepo "acme" "widget" reposFixture
        [(7, fullRow "10.0.0"), (7, fullRow "2.0.0")]).status = 200 ∧
      ∃ out, readRepo "acme" "widget" reposFixture
          [(7, fullRow "10.0.0"), (7, fullRow "2.0.0")] = .ok out ∧
        out.Perm (getRepoReleases 7 [(7, fullRow "10.0.0"), (7, fullRow "2.0.0")]) ∧
        out.Pairwise (fun a b => strLe b.version a.version = true)) :=
  ⟨rfl, by decide,
    read_repo_known_pair_version_sorted "acme" "widget" reposFixture
      [(7, fullRow "10.0.0"), (7, fullRow "2.0.0")] 7 rfl⟩

/-- Claim C6: the unfiltered listing returns at most 100 releases,
ordered by creation time descending, and `get_flake` (in both main.rs
and api/flake.rs) passes that list through unchanged. -/
theorem recent_listing_capped_and_ordered
    (params : List (String × String)) (engine : String → Json)
    (rows : List SqlFlakeRelease) (rowsApi : List ApiFlakeReleaseCompact)
    (h : params.lookup "q" = none) :
    ∃ out outApi,
      sqlGetFlakes (.ok rows) = .ok out ∧
      out.length ≤ 100 ∧
      out.Pairwise (fun a b => b.created_at ≤ a.created_at) ∧
      mainGetFlake params engine (.ok rows) =
        (.recent, .ok { releases := out, count := out.length, query := none }) ∧
      apiGetFlakes (.ok rowsApi) = .ok outApi ∧
      outApi.length ≤ 100 ∧
      outApi.Pairwise (fun a b => b.created_at ≤ a.created_at) ∧
      apiGetFlake params engine (.ok rowsApi) =
        (.recent, .ok { releases := outApi, count := outApi.length, query := none }) := by
  refine ⟨_, _, rfl, ?_, ?_, ?_, rfl, ?_, ?_, ?_⟩
  · rw [List.length_take]
    exact Nat.min_le_left _ _
  · refine List.Pairwise.sublist (List.take_sublist _ _) ?_
    haveI : IsTotal SqlFlakeRelease (fun a b => b.created_at ≤ a.created_at) :=
      ⟨fun a b => le_total _ _⟩
    haveI : IsTrans SqlFlakeRelease (fun a b => b.created_at ≤ a.created_at) :=
      ⟨fun _ _ _ h1 h2 => le_trans h2 h1⟩
    exact List.sorted_insertionSort (fun a b : SqlFlakeRelease => b.created_at ≤ a.created_at) _
  · simp [mainGetFlake, h, sqlGetFlakes, Except.map]
  · rw [List.length_take]
    exact Nat.min_le_left _ _
  · refine List.Pairwise.sublist (List.take_sublist _ _) ?_
    haveI : IsTotal ApiFlakeReleaseCompact (fun a b => b.created_at ≤ a.created_at) :=
      ⟨fun a b => le_total _ _⟩
    haveI : IsTrans ApiFlakeReleaseCompact (fun a b => b.created_at ≤ a.created_at) :=
      ⟨fun _ _ _ h1 h2 => le_trans h2 h1⟩
    exact List.sorted_insertionSort (fun a b : ApiFlakeReleaseCompact => b.created_at ≤ a.created_at) _
  · simp [apiGetFlake, h, apiGetFlakes, Except.map]

/-- Witness for C6 at a concrete three-row store and a request without
the `q` parameter. -/
theorem recent_listing_capped_and_ordered_witness :
    (([] : List (String × String)).lookup "q" = none) ∧
    (∃ out outApi,
      sqlGetFlakes (.ok [sqlRow 1, sqlRow 3, sqlRow 2]) = .ok out ∧
      out.length ≤ 100 ∧
      out.Pairwise (fun a b => b.created_at ≤ a.created_at) ∧
      mainGetFlake [] engineNoHits (.ok [sqlRow 1, sqlRow 3, sqlRow 2]) =
        (.recent, .ok { releases := out, count := out.length, query := none }) ∧
      apiGetFlakes (.ok [compactRow 1, compactRow 2]) = .ok outApi ∧
      outApi.length ≤ 100 ∧
      outApi.Pairwise (fun a b => b.created_at ≤ a.created_at) ∧
      apiGetFlake [] engineNoHits (.ok [compactRow 1, compactRow 2]) =
        (.recent, .ok { releases := outApi, count := outApi.length, query := none })) :=
  ⟨rfl,
    recent_listing_capped_and_ordered [] engineNoHits
      [sqlRow 1, sqlRow 3, sqlRow 2] [compactRow 1, compactRow 2] rfl⟩

/-- Claim C7: `search_flakes` issues a size-10 fuzzy multi-match over
description (boost 2), readme, outputs, repo (boost 2) and owner
(boost 2), and the identifier-to-score mapping built from the response
never exceeds the requested 10 hits when the engine honours the size
bound. -/
theorem search_flakes_request_shape_and_cap
    (q : String) (resp : Json) (hitArr : List Json) (m : List (Int × FVal))
    (hresp : ((resp.index "hits").index "hits").asArr = some hitArr)
    (hsize : hitArr.length ≤ (searchRequest q).size)
    (hm : searchExtractCtx resp = .ok m) :
    (searchRequest q).indexParts = ["flakes"] ∧
    (searchRequest q).size = 10 ∧
    (searchRequest q).body = Json.obj [("query", Json.obj [("multi_match", Json.obj
      [("query", Json.str q),
       ("fuzziness", Json.str "AUTO"),
       ("fields", Json.arr [Json.str "description^2", Json.str "readme",
          Json.str "outputs", Json.str "repo^2", Json.str "owner^2"])])])] ∧
    m.length ≤ 10 := by
  refine ⟨rfl, rfl, rfl, ?_⟩
  have hloop : extractLoopCtx hitArr [] = .ok m := by
    simpa [searchExtractCtx, hresp] using hm
  have hlen := extractLoopCtx_length hloop
  rw [show (searchRequest q).size = 10 from rfl] at hsize
  simp only [List.length_nil, Nat.zero_add] at hlen
  omega

/-- Witness for C7 at a concrete two-hit engine response. -/
theorem search_flakes_request_shape_and_cap_witness :
    ((((hitsResp [hitDoc "1" 1, hitDoc "2" 5]).index "hits").index "hits").asArr =
      some [hitDoc "1" 1, hitDoc "2" 5]) ∧
    ([hitDoc "1" 1, hitDoc "2" 5] : List Json).length ≤ (searchRequest "rust").size ∧
    searchExtractCtx (hitsResp [hitDoc "1" 1, hitDoc "2" 5]) =
      .ok [(1, .val 1), (2, .val 5)] ∧
    ((searchRequest "rust").indexParts = ["flakes"] ∧
     (searchRequest "rust").size = 10 ∧
     (searchRequest "rust").body = Json.obj [("query", Json.obj [("multi_match", Json.obj
       [("query", Json.str "rust"),
        ("fuzziness", Json.str "AUTO"),
        ("fields", Json.arr [Json.str "description^2", Json.str "readme",
           Json.str "outputs", Json.str "repo^2", Json.str "owner^2"])])])] ∧
     ([(1, FVal.val 1), (2, FVal.val 5)] : List (Int × FVal)).length ≤ 10) :=
  ⟨rfl, by decide, rfl,
    search_flakes_request_shape_and_cap "rust" (hitsResp [hitDoc "1" 1, hitDoc "2" 5])
      [hitDoc "1" 1, hitDoc "2" 5] [(1, .val 1), (2, .val 5)] rfl (by decide) rfl⟩

/-- Claim C9: in the main.rs search path, hydration only returns rows
whose identifier is a key of the score map, so both map lookups in the
sort comparator succeed on every pair of hydrated releases, and when no
score is NaN the comparator value itself is defined. -/
theorem search_path_comparator_never_fails
    (hits : List (Int × FVal)) (rows releases : List SqlFlakeRelease)
    (hnan : ∀ p ∈ hits, p.2 ≠ FVal.nan)
    (hrel : (sqlGetFlakesByIds (hits.map Prod.fst) (.ok rows)).1 = .ok releases) :
    ∀ a ∈ releases, (∃ s, hits.lookup a.id = some s) ∧
      ∀ b ∈ releases, ∃ o, hitsCmp hits a b = some o := by
  by_cases hemp : (hits.map Prod.fst).isEmpty
  · have hnil : releases = [] := by
      simp only [sqlGetFlakesByIds, hemp, if_pos, Except.ok.injEq] at hrel
      exact hrel.symm
    subst hnil
    intro a ha
    simp at ha
  · have hfil : releases = rows.filter (fun r => (hits.map Prod.fst).contains r.id) := by
      simp only [sqlGetFlakesByIds, hemp, if_neg, Bool.false_eq_true, not_false_iff,
        Except.map, Except.ok.injEq] at hrel
      exact hrel.symm
    subst hfil
    intro a ha
    have haid : a.id ∈ hits.map Prod.fst := by
      simpa using List.of_mem_filter ha
    obtain ⟨sa, hsa⟩ := lookup_isSome_of_mem_map_fst haid
    obtain ⟨qa, hqa⟩ : ∃ qv, sa = FVal.val qv := by
      have hval := hnan _ (mem_of_lookup_eq_some hsa)
      cases sa with
      | nan => simp at hval
      | val qv => exact ⟨qv, rfl⟩
    refine ⟨⟨sa, hsa⟩, ?_⟩
    intro b hb
    have hbid : b.id ∈ hits.map Prod.fst := by
      simpa using List.of_mem_filter hb
    obtain ⟨sb, hsb⟩ := lookup_isSome_of_mem_map_fst hbid
    obtain ⟨qb, hqb⟩ : ∃ qv, sb = FVal.val qv := by
      have hval := hnan _ (mem_of_lookup_eq_some hsb)
      cases sb with
      | nan => simp at hval
      | val qv => exact ⟨qv, rfl⟩
    exact ⟨compare qb qa, by simp [hitsCmp, hsa, hsb, hqa, hqb, FVal.cmpOpt]⟩

/-- Witness for C9 at a concrete one-hit score map. -/
theorem search_path_comparator_never_fails_witness :
    (∀ p ∈ ([(1, FVal.val 2)] : List (Int × FVal)), p.2 ≠ FVal.nan) ∧
    (sqlGetFlakesByIds (([(1, FVal.val 2)] : List (Int × FVal)).map Prod.fst)
      (.ok [sqlRow 1])).1 = .ok [sqlRow 1] ∧
    (∀ a ∈ [sqlRow 1], (∃ s, ([(1, FVal.val 2)] : List (Int × FVal)).lookup a.id = some s) ∧
      ∀ b ∈ [sqlRow 1], ∃ o, hitsCmp [(1, FVal.val 2)] a b = some o) :=
  ⟨by decide, rfl,
    search_path_comparator_never_fails [(1, FVal.val 2)] [sqlRow 1] [sqlRow 1]
      (by decide) rfl⟩

/-- Claim C10: the choice between the search path and the recent listing
depends only on the presence of the `q` parameter, not its content: with
`q` equal to the empty string both handlers take the search path with
the empty query and echo the empty string. -/
theorem empty_query_takes_search_path
    (params : List (String × String)) (engine : String → Json)
    (db : Except String (List SqlFlakeRelease))
    (dbApi : Except String (List ApiFlakeReleaseCompact))
    (h : params.lookup "q" = some "") :
    (mainGetFlake params engine db).1 = .search "" ∧
    (mainGetFlake params engine db).1 ≠ .recent ∧
    (∀ resp, (mainGetFlake params engine db).2 = .ok resp → resp.query = some "") ∧
    (apiGetFlake params engine dbApi).1 = .search "" ∧
    (∀ resp, (apiGetFlake params engine dbApi).2 = .ok resp → resp.query = some "") := by
  refine ⟨by simp [mainGetFlake, h], by simp [mainGetFlake, h], ?_,
    by simp [apiGetFlake, h], ?_⟩
  · intro resp hresp
    simp only [mainGetFlake, h] at hresp
    split at hresp
    · cases hresp
    · split at hresp
      · cases hresp
      · split at hresp
        · cases hresp; rfl
        · split at hresp
          · cases hresp
          · cases hresp; rfl
  · intro resp hresp
    simp only [apiGetFlake, h] at hresp
    split at hresp
    · cases hresp
    · split at hresp
      · cases hresp
      · cases hresp; rfl

/-- Witness for C10 at the concrete request `q=` with a zero-hit engine. -/
theorem empty_query_takes_search_path_witness :
    ([("q", "")] : List (String × String)).lookup "q" = some "" ∧
    ((mainGetFlake [("q", "")] engineNoHits (.ok [sqlRow 1])).1 = .search "" ∧
     (mainGetFlake [("q", "")] engineNoHits (.ok [sqlRow 1])).1 ≠ .recent ∧
     (∀ resp, (mainGetFlake [("q", "")] engineNoHits (.ok [sqlRow 1])).2 = .ok resp →
       resp.query = some "") ∧
     (apiGetFlake [("q", "")] engineNoHits (.ok [compactRow 1])).1 = .search "" ∧
     (∀ resp, (apiGetFlake [("q", "")] engineNoHits (.ok [compactRow 1])).2 = .ok resp →
       resp.query = some "")) :=
  ⟨rfl,
    empty_query_takes_search_path [("q", "")] engineNoHits
      (.ok [sqlRow 1]) (.ok [compactRow 1]) rfl⟩

/-- Claim C1, evaluated on the code: with hits scoring release 1 at 1
and release 2 at 5, the api/flake.rs `get_flake` answers with release 1
first — ascending internal id, the scores unused — while the main.rs
handler on the same data answers in descending score order (release 2
first). -/
theorem api_get_flake_ignores_relevance_order :
    searchExtractCtx (engineTwoHits "tool") = .ok [(1, .val 1), (2, .val 5)] ∧
    (apiGetFlake [("q", "tool")] engineTwoHits (.ok [compactRow 1, compactRow 2])).2 =
      .ok { releases := [compactRow 1, compactRow 2], count := 2, query := some "tool" } ∧
    (mainGetFlake [("q", "tool")] engineTwoHits (.ok [sqlRow 1, sqlRow 2])).2 =
      .ok { releases := [sqlRow 2, sqlRow 1], count := 2, query := some "tool" } ∧
    (1 : ℚ) < 5 :=
  ⟨rfl, by decide, by decide, by decide⟩

/-- Claim C2, evaluated on the code: on a response missing the hits
array, carrying a non-string or non-numeric identifier, or missing the
score, the search.rs `search_flakes` panics on `unwrap`, while the
api/flake.rs variant returns the corresponding context error. -/
theorem search_rs_panics_on_malformed_response :
    (searchExtractUnwrap respNoHits = none ∧
     searchExtractUnwrap respIdNotString = none ∧
     searchExtractUnwrap respIdNotNumeric = none ∧
     searchExtractUnwrap respNoScore = none) ∧
    (searchExtractCtx respNoHits =
       .error "failed to extract hits from open search response" ∧
     searchExtractCtx respIdNotString =
       .error "failed to read id as string from open search hit" ∧
     searchExtractCtx respIdNotNumeric =
       .error "failed to parse id from open search hit" ∧
     searchExtractCtx respNoScore =
       .error "failed to parse score from open search hit") :=
  ⟨⟨rfl, rfl, rfl, rfl⟩, ⟨rfl, rfl, rfl, rfl⟩⟩

end Flakestry
